import Mathlib

/-!
Shallow embedding of the pdf-to-vector pipeline: vector indexing
(cluster_pdfs.py), K-means cluster assignment and metadata update
(cluster_pdfs.py, perform_clustering), relevance-filtered retrieval and
context assembly (rag_chat.py), and page-level PDF text extraction
(extract_text_from_pdfs.py).  Distances and embedding coordinates are
modelled as rationals; Python dict metadata is modelled as a structure
with the two required keys (source, page) and the optional cluster_id.
-/

namespace PdfToVector

/-- Metadata of one record: required keys source and page, optional key
cluster_id (present only after clustering has run). -/
structure Metadata where
  source : String
  page : Nat
  cluster_id : Option Nat := none
deriving Repr, DecidableEq

/-- One indexed unit of text in the collection. -/
structure Record where
  id : String
  text : String
  embedding : List ℚ
  metadata : Metadata
deriving Repr, DecidableEq

/-- The collection's contents, in storage (insertion) order. -/
abbrev Store := List Record

/-- One extracted document before indexing: text plus source/page metadata
(mirrors the dict built in extract_text_from_pdfs). -/
structure Doc where
  text : String
  metadata : Metadata
deriving Repr, DecidableEq

/-! ### Retrieval filtering (rag_chat.py, retrieve_relevant_docs) -/

/-- Raw result of a single-query collection.query call: three parallel
lists, as in results of chromadb (documents[0], metadatas[0], distances[0]). -/
structure QueryResult where
  documents : List String
  metadatas : List Metadata
  distances : List ℚ
deriving Repr, DecidableEq

/-- Configured constant RELEVANCE_THRESHOLD = 0.3 of rag_chat.py. -/
def RELEVANCE_THRESHOLD : ℚ := 3 / 10

/-- Configured constant TOP_K_RESULTS = 5 of rag_chat.py. -/
def TOP_K_RESULTS : Nat := 5

/-- The filtering loop of retrieve_relevant_docs: walk the zipped
(doc, metadata, distance) triples in order, appending a triple to the three
filtered lists exactly when relevance_score = 1 - distance meets the
threshold. -/
def filterLoop (threshold : ℚ) :
    List (String × Metadata × ℚ) → List String × List Metadata × List ℚ
  | [] => ([], [], [])
  | (doc, md, dist) :: rest =>
      let tail := filterLoop threshold rest
      if threshold ≤ 1 - dist then
        (doc :: tail.1, md :: tail.2.1, dist :: tail.2.2)
      else
        tail

/-- Embedding of retrieve_relevant_docs, with the module constant
RELEVANCE_THRESHOLD generalized to a parameter: when documents[0] is
non-empty, replace the three parallel lists by their threshold-filtered
versions; otherwise return the result unchanged. -/
def retrieve_relevant_docs (threshold : ℚ) (res : QueryResult) : QueryResult :=
  if res.documents = [] then res
  else
    let f := filterLoop threshold (res.documents.zip (res.metadatas.zip res.distances))
    ⟨f.1, f.2.1, f.2.2⟩

theorem filterLoop_eq_filter (t : ℚ) (l : List (String × Metadata × ℚ)) :
    filterLoop t l =
      ((l.filter (fun x => decide (t ≤ 1 - x.2.2))).map (fun x => x.1),
       (l.filter (fun x => decide (t ≤ 1 - x.2.2))).map (fun x => x.2.1),
       (l.filter (fun x => decide (t ≤ 1 - x.2.2))).map (fun x => x.2.2)) := by
  induction l with
  | nil => rfl
  | cons x rest ih =>
      obtain ⟨doc, md, dist⟩ := x
      by_cases h : t ≤ 1 - dist
      · simp [filterLoop, ih, List.filter, h]
      · simp [filterLoop, ih, List.filter, h]

/-- C1: for every query result with well-formed parallel lists and every
relevance threshold t in [0,1], the filtered result of
retrieve_relevant_docs is exactly the order-preserving sublist (a
List.filter) of the nearest-neighbor candidates whose relevance
1 - distance meets the threshold, and every returned tuple satisfies the
threshold: no qualifying candidate is dropped and no order changes. -/
theorem retrieve_filter_exact (t : ℚ) (res : QueryResult)
    (ht0 : 0 ≤ t) (ht1 : t ≤ 1)
    (hm : res.metadatas.length = res.documents.length)
    (hd : res.distances.length = res.documents.length) :
    (retrieve_relevant_docs t res).documents =
      ((res.documents.zip (res.metadatas.zip res.distances)).filter
        (fun x => decide (t ≤ 1 - x.2.2))).map (fun x => x.1) ∧
    (retrieve_relevant_docs t res).metadatas =
      ((res.documents.zip (res.metadatas.zip res.distances)).filter
        (fun x => decide (t ≤ 1 - x.2.2))).map (fun x => x.2.1) ∧
    (retrieve_relevant_docs t res).distances =
      ((res.documents.zip (res.metadatas.zip res.distances)).filter
        (fun x => decide (t ≤ 1 - x.2.2))).map (fun x => x.2.2) ∧
    ∀ d ∈ (retrieve_relevant_docs t res).distances, t ≤ 1 - d := by
  unfold retrieve_relevant_docs
  by_cases hempty : res.documents = []
  · have hm' : res.metadatas = [] := List.eq_nil_of_length_eq_zero (by
      rw [hm, hempty]; rfl)
    have hd' : res.distances = [] := List.eq_nil_of_length_eq_zero (by
      rw [hd, hempty]; rfl)
    simp [hempty, hm', hd']
  · have hfl := filterLoop_eq_filter t (res.documents.zip (res.metadatas.zip res.distances))
    refine ⟨?_, ?_, ?_, ?_⟩ <;>
      simp only [hempty, if_neg, ite_false, hfl]
    intro d hdmem
    rcases List.mem_map.mp hdmem with ⟨x, hxmem, hxd⟩
    have := List.of_mem_filter hxmem
    rw [← hxd]
    exact of_decide_eq_true this

/-- Witness for retrieve_filter_exact at a concrete query result with one
candidate above and one below the threshold 0.3. -/
theorem retrieve_filter_exact_witness :
    ((0 : ℚ) ≤ 3 / 10 ∧
      (QueryResult.mk ["a", "b"] [⟨"s", 1, none⟩, ⟨"s", 2, some 0⟩] [1/5, 4/5]).metadatas.length =
      (QueryResult.mk ["a", "b"] [⟨"s", 1, none⟩, ⟨"s", 2, some 0⟩] [1/5, 4/5]).documents.length) ∧
    ∀ d ∈ (retrieve_relevant_docs (3/10)
        (QueryResult.mk ["a", "b"] [⟨"s", 1, none⟩, ⟨"s", 2, some 0⟩] [1/5, 4/5])).distances,
      (3 : ℚ)/10 ≤ 1 - d :=
  ⟨⟨by norm_num, by decide⟩,
    (retrieve_filter_exact (3/10)
      (QueryResult.mk ["a", "b"] [⟨"s", 1, none⟩, ⟨"s", 2, some 0⟩] [1/5, 4/5])
      (by norm_num) (by norm_num) (by decide) (by decide)).2.2.2⟩

/-! ### Clustering (cluster_pdfs.py, perform_clustering)

The K-means numerics themselves live in scikit-learn and are external; the
label function fitPredict (one label per input vector) is a parameter of
the embedding, as the embedding provider is.  The Chroma store operations
are modelled from the spec: collection.get with an explicit id list
returns the data of the named records in the requested order (spec sec.
4.1: get order is stable between consecutive calls with no intervening
write), and collection.update replaces the metadata of each named record
with the supplied mapping, matching records by id. -/

/-- Configured constant K_CLUSTERS = 10 of cluster_pdfs.py. -/
def K_CLUSTERS : Nat := 10

/-- Modelled from the spec: collection.get(ids, include metadatas) of the
external Chroma store returns the metadata of each requested id that is
present, in request order. -/
def getMetadatas (s : Store) (ids : List String) : List Metadata :=
  ids.filterMap (fun i => (s.find? (fun r => r.id == i)).map (fun r => r.metadata))

/-- Modelled from the spec: collection.update(ids, metadatas) of the
external Chroma store replaces the metadata of each record whose id is
named with the mapping supplied at the same position, matching by id. -/
def updateByIds (s : Store) (ids : List String) (mds : List Metadata) : Store :=
  s.map (fun r =>
    match (ids.zip mds).find? (fun p => p.1 == r.id) with
    | some p => { r with metadata := p.2 }
    | none => r)

/-- Inner enumerate loop of the update body: for i, metadata in
enumerate(full_results metadatas), set metadata cluster_id :=
cluster_labels[i]; the counter starts at 0 at the call site. -/
def setClusterIds (labels : List Nat) : Nat → List Metadata → List Metadata
  | _, [] => []
  | i, md :: rest =>
      { md with cluster_id := some (labels.getD i 0) } :: setClusterIds labels (i + 1) rest

/-- Body of the update loop of perform_clustering: fetch all existing
metadatas for ids_to_update, write cluster_id := cluster_labels[i] into the
i-th fetched metadata, and bulk-update the collection. -/
def clusterUpdateStep (labels : List Nat) (ids : List String) (s : Store) : Store :=
  let mds := getMetadatas s ids
  updateByIds s ids (setClusterIds labels 0 mds)

/-- Observable report of one perform_clustering run, standing for its
console output: either the insufficient-data message (fewer than 2
points), or completion with the k actually used, whether the
adjusting-K-warning was printed, and the computed labels. -/
inductive ClusterReport where
  | insufficientData (n : Nat)
  | done (kUsed : Nat) (adjusted : Bool) (labels : List Nat)
deriving Repr, DecidableEq

/-- Embedding of perform_clustering, with the module constant K_CLUSTERS
generalized to the parameter kClusters and the external
KMeans(random_state=42, n_init=10).fit_predict passed as fitPredict.
Fetch all ids and embeddings in store order, set k = min(kClusters, n),
return unchanged with the insufficient-data report when n < 2, otherwise
compute labels and run the per-(id,label) update loop, whose body updates
all records each iteration. -/
def perform_clustering (fitPredict : Nat → List (List ℚ) → List Nat)
    (kClusters : Nat) (s : Store) : Store × ClusterReport :=
  let ids := s.map (fun r => r.id)
  let vectors := s.map (fun r => r.embedding)
  let k := min kClusters vectors.length
  if vectors.length < 2 then
    (s, .insufficientData vectors.length)
  else
    let labels := fitPredict k vectors
    let s' := (clusterUpdateStep labels ids)^[min ids.length labels.length] s
    (s', .done k (decide (k < kClusters)) labels)

/-- Reference characterization of one whole metadata-update pass: record at
position j (counting from the start value of the counter) receives
cluster_id labels[j], all other fields untouched. -/
def applyLabels (labels : List Nat) : Nat → Store → Store
  | _, [] => []
  | i, r :: rest =>
      { r with metadata := { r.metadata with cluster_id := some (labels.getD i 0) } } ::
        applyLabels labels (i + 1) rest

theorem find?_id_cons_of_ne (r : Record) (s : Store) (i : String) (h : r.id ≠ i) :
    (r :: s).find? (fun x => x.id == i) = s.find? (fun x => x.id == i) :=
  List.find?_cons_of_neg _ (by simpa using h)

theorem getMetadatas_cons_of_not_mem (r : Record) (s : Store) (ids : List String)
    (h : r.id ∉ ids) : getMetadatas (r :: s) ids = getMetadatas s ids := by
  induction ids with
  | nil => rfl
  | cons i rest ih =>
      have hne : r.id ≠ i := fun he => h (he ▸ List.mem_cons_self i rest)
      have hrest : r.id ∉ rest := fun hm => h (List.mem_cons_of_mem i hm)
      simp only [getMetadatas, List.filterMap_cons, find?_id_cons_of_ne r s i hne]
      cases hfind : s.find? (fun x => x.id == i) with
      | none => simpa [getMetadatas] using ih hrest
      | some x => simpa [getMetadatas] using ih hrest

theorem getMetadatas_self (s : Store) (h : (s.map (fun r => r.id)).Nodup) :
    getMetadatas s (s.map (fun r => r.id)) = s.map (fun r => r.metadata) := by
  induction s with
  | nil => rfl
  | cons r rest ih =>
      rw [List.map_cons] at h
      have hnotmem : r.id ∉ rest.map (fun r => r.id) := (List.nodup_cons.mp h).1
      have hnd : (rest.map (fun r => r.id)).Nodup := (List.nodup_cons.mp h).2
      have hfind : (r :: rest).find? (fun x => x.id == r.id) = some r :=
        List.find?_cons_of_pos _ (by simp)
      simp only [List.map_cons, getMetadatas, List.filterMap_cons, hfind, Option.map_some]
      rw [show (List.filterMap
            (fun i => Option.map (fun r => r.metadata) (List.find? (fun x => x.id == i) (r :: rest)))
            (List.map (fun r => r.id) rest)) =
          getMetadatas (r :: rest) (rest.map (fun r => r.id)) from rfl]
      rw [getMetadatas_cons_of_not_mem r rest _ hnotmem]
      rw [show getMetadatas rest (rest.map (fun r => r.id)) = rest.map (fun r => r.metadata) from ih hnd]
      rfl

theorem updateByIds_self (s : Store) (mds : List Metadata)
    (h : (s.map (fun r => r.id)).Nodup) (hlen : mds.length = s.length) :
    updateByIds s (s.map (fun r => r.id)) mds =
      List.zipWith (fun r md => { r with metadata := md }) s mds := by
  induction s generalizing mds with
  | nil => simp [updateByIds]
  | cons r rest ih =>
      cases mds with
      | nil => exact absurd hlen (by simp)
      | cons md mrest =>
          rw [List.map_cons] at h
          have hnotmem : r.id ∉ rest.map (fun x => x.id) := (List.nodup_cons.mp h).1
          have hnd : (rest.map (fun x => x.id)).Nodup := (List.nodup_cons.mp h).2
          have hlen' : mrest.length = rest.length := by simpa using hlen
          have hfind : ((r.id, md) :: (rest.map (fun x => x.id)).zip mrest).find?
              (fun p => p.1 == r.id) = some (r.id, md) :=
            List.find?_cons_of_pos _ (by simp)
          simp only [updateByIds, List.map_cons, List.zip_cons_cons, List.zipWith_cons_cons,
            hfind]
          refine congrArg _ ?_
          rw [← ih mrest hnd hlen']
          simp only [updateByIds]
          apply List.map_congr_left
          intro x hx
          have hxid : x.id ∈ rest.map (fun y => y.id) := List.mem_map_of_mem _ hx
          have hne : (r.id == x.id) = false := by
            simp only [beq_eq_false_iff_ne, ne_eq]
            intro he
            exact hnotmem (he ▸ hxid)
          simp only [List.find?_cons, hne]

theorem zipWith_setClusterIds (labels : List Nat) (t : Store) (i : Nat) :
    List.zipWith (fun r md => { r with metadata := md }) t
        (setClusterIds labels i (t.map (fun r => r.metadata))) =
      applyLabels labels i t := by
  induction t generalizing i with
  | nil => rfl
  | cons r rest ih => simp only [List.map_cons, setClusterIds, List.zipWith_cons_cons,
      applyLabels, ih]

theorem setClusterIds_length (labels : List Nat) (i : Nat) (mds : List Metadata) :
    (setClusterIds labels i mds).length = mds.length := by
  induction mds generalizing i with
  | nil => rfl
  | cons md rest ih => simp [setClusterIds, ih]

theorem clusterUpdateStep_char (labels : List Nat) (t : Store)
    (h : (t.map (fun r => r.id)).Nodup) :
    clusterUpdateStep labels (t.map (fun r => r.id)) t = applyLabels labels 0 t := by
  unfold clusterUpdateStep
  rw [getMetadatas_self t h]
  rw [updateByIds_self t _ h (by rw [setClusterIds_length]; simp)]
  exact zipWith_setClusterIds labels t 0

theorem applyLabels_map_id (labels : List Nat) (t : Store) (i : Nat) :
    (applyLabels labels i t).map (fun r => r.id) = t.map (fun r => r.id) := by
  induction t generalizing i with
  | nil => rfl
  | cons r rest ih => simp [applyLabels, ih]

theorem applyLabels_idem (labels : List Nat) (t : Store) (i : Nat) :
    applyLabels labels i (applyLabels labels i t) = applyLabels labels i t := by
  induction t generalizing i with
  | nil => rfl
  | cons r rest ih => simp [applyLabels, ih]

theorem iterate_clusterUpdateStep (labels : List Nat) (s : Store)
    (h : (s.map (fun r => r.id)).Nodup) (n : Nat) (hn : 1 ≤ n) :
    (clusterUpdateStep labels (s.map (fun r => r.id)))^[n] s = applyLabels labels 0 s := by
  have hstepA : clusterUpdateStep labels (s.map (fun r => r.id)) (applyLabels labels 0 s) =
      applyLabels labels 0 s := by
    have hmap := applyLabels_map_id labels s 0
    have hA : ((applyLabels labels 0 s).map (fun r => r.id)).Nodup := by rw [hmap]; exact h
    calc clusterUpdateStep labels (s.map (fun r => r.id)) (applyLabels labels 0 s)
        = clusterUpdateStep labels ((applyLabels labels 0 s).map (fun r => r.id))
            (applyLabels labels 0 s) := by rw [hmap]
      _ = applyLabels labels 0 (applyLabels labels 0 s) := clusterUpdateStep_char labels _ hA
      _ = applyLabels labels 0 s := applyLabels_idem labels s 0
  have aux : ∀ m, (clusterUpdateStep labels (s.map (fun r => r.id)))^[m]
      (applyLabels labels 0 s) = applyLabels labels 0 s := by
    intro m
    induction m with
    | zero => rfl
    | succ m ih => rw [Function.iterate_succ_apply, hstepA, ih]
  obtain ⟨m, rfl⟩ : ∃ m, n = m + 1 := ⟨n - 1, by omega⟩
  rw [Function.iterate_succ_apply, clusterUpdateStep_char labels s h, aux m]

theorem applyLabels_length (labels : List Nat) (t : Store) (i : Nat) :
    (applyLabels labels i t).length = t.length := by
  induction t generalizing i with
  | nil => rfl
  | cons r rest ih => simp [applyLabels, ih]

/-- Default record used only as the out-of-range fallback of List.getD in
theorem statements. -/
def recDefault : Record := ⟨"", "", [], ⟨"", 0, none⟩⟩

theorem applyLabels_getD (labels : List Nat) (t : Store) (i j : Nat)
    (hj : j < t.length) :
    (applyLabels labels i t).getD j recDefault =
      { (t.getD j recDefault) with metadata :=
          { (t.getD j recDefault).metadata with
              cluster_id := some (labels.getD (i + j) 0) } } := by
  induction t generalizing i j with
  | nil => exact absurd hj (by simp)
  | cons r rest ih =>
      cases j with
      | zero => simp [applyLabels]
      | succ j =>
          have hj' : j < rest.length := by simpa using hj
          have := ih (i + 1) j hj'
          simpa [applyLabels, Nat.add_assoc, Nat.add_comm 1 j] using this

/-- C2: for every vector set of size n >= 2 and every k_requested >= 1, the
clustering pass hands k_actual = min(k_requested, n) clusters to K-means
(the labels in the report are fitPredict applied at exactly that k), and
whenever k_actual < k_requested the adjusted flag of the report — the
adjusting-K warning — is set, so the reduction is reported. -/
theorem clustering_kactual_min (fitPredict : Nat → List (List ℚ) → List Nat)
    (kReq : Nat) (s : Store) (hk : 1 ≤ kReq) (hn : 2 ≤ s.length) :
    (perform_clustering fitPredict kReq s).2 =
      ClusterReport.done (min kReq s.length)
        (decide (min kReq s.length < kReq))
        (fitPredict (min kReq s.length) (s.map (fun r => r.embedding))) ∧
    (min kReq s.length < kReq →
      (perform_clustering fitPredict kReq s).2 =
        ClusterReport.done (min kReq s.length) true
          (fitPredict (min kReq s.length) (s.map (fun r => r.embedding)))) := by
  have hlen : (s.map (fun r => r.embedding)).length = s.length := List.length_map s _
  have hnot : ¬ s.length < 2 := by omega
  constructor
  · simp only [perform_clustering, hlen, if_neg hnot]
  · intro hlt
    simp only [perform_clustering, hlen, if_neg hnot, decide_eq_true hlt]

/-- Witness for clustering_kactual_min: three two-dimensional vectors with
k_requested = 10 yield k_actual = 3 and the adjusted flag. -/
theorem clustering_kactual_min_witness :
    (1 ≤ 10 ∧ 2 ≤ ([⟨"a", "", [0, 0], ⟨"a", 1, none⟩⟩,
                     ⟨"b", "", [0, 1], ⟨"b", 1, none⟩⟩,
                     ⟨"c", "", [1, 0], ⟨"c", 1, none⟩⟩] : Store).length) ∧
    (perform_clustering (fun _ v => List.range v.length) 10
        [⟨"a", "", [0, 0], ⟨"a", 1, none⟩⟩,
         ⟨"b", "", [0, 1], ⟨"b", 1, none⟩⟩,
         ⟨"c", "", [1, 0], ⟨"c", 1, none⟩⟩]).2 =
      ClusterReport.done 3 (decide (3 < 10)) [0, 1, 2] :=
  ⟨⟨by decide, by decide⟩, by
    have h := (clustering_kactual_min (fun _ v => List.range v.length) 10
      [⟨"a", "", [0, 0], ⟨"a", 1, none⟩⟩,
       ⟨"b", "", [0, 1], ⟨"b", 1, none⟩⟩,
       ⟨"c", "", [1, 0], ⟨"c", 1, none⟩⟩] (by decide) (by decide)).1
    simpa using h⟩

/-- C3: for every vector set with fewer than 2 points, perform_clustering
is a no-op: the store is returned completely unchanged (so no record's
metadata is touched and no cluster_id appears) and the report is the
insufficient-data message; being a total function, it raises nothing. -/
theorem clustering_noop_small (fitPredict : Nat → List (List ℚ) → List Nat)
    (kClusters : Nat) (s : Store) (hn : s.length < 2) :
    perform_clustering fitPredict kClusters s = (s, .insufficientData s.length) := by
  have hlen : (s.map (fun r => r.embedding)).length = s.length := List.length_map s _
  simp only [perform_clustering, hlen, if_pos hn]

/-- Witness for clustering_noop_small at a one-record store. -/
theorem clustering_noop_small_witness :
    (([⟨"a", "t", [0, 0], ⟨"a.pdf", 1, none⟩⟩] : Store).length < 2) ∧
    perform_clustering (fun _ v => List.range v.length) 10
        [⟨"a", "t", [0, 0], ⟨"a.pdf", 1, none⟩⟩] =
      ([⟨"a", "t", [0, 0], ⟨"a.pdf", 1, none⟩⟩], .insufficientData 1) :=
  ⟨by decide,
    clustering_noop_small (fun _ v => List.range v.length) 10
      [⟨"a", "t", [0, 0], ⟨"a.pdf", 1, none⟩⟩] (by decide)⟩

theorem perform_clustering_store_char (fitPredict : Nat → List (List ℚ) → List Nat)
    (kReq : Nat) (s : Store)
    (hnd : (s.map (fun r => r.id)).Nodup) (hn : 2 ≤ s.length)
    (hlab : (fitPredict (min kReq s.length) (s.map (fun r => r.embedding))).length = s.length) :
    (perform_clustering fitPredict kReq s).1 =
      applyLabels (fitPredict (min kReq s.length) (s.map (fun r => r.embedding))) 0 s := by
  have hlen : (s.map (fun r => r.embedding)).length = s.length := List.length_map s _
  have hids : (s.map (fun r => r.id)).length = s.length := List.length_map s _
  have hnot : ¬ s.length < 2 := by omega
  simp only [perform_clustering, hlen, if_neg hnot]
  rw [hids, hlab, min_self]
  exact iterate_clusterUpdateStep _ s hnd s.length (by omega)

/-- C5: after a clustering pass on a store with distinct ids (and at least
two records, the labels being one per vector), the record at position i of
the store keeps its id and embedding and carries in its metadata exactly
the label the clustering computed for the embedding at position i of the
fetched vectors — label application is bound to the correct record
identity even though embeddings and metadatas are fetched in separate
calls. -/
theorem cluster_labels_bound_to_records (fitPredict : Nat → List (List ℚ) → List Nat)
    (kReq : Nat) (s : Store)
    (hnd : (s.map (fun r => r.id)).Nodup) (hn : 2 ≤ s.length)
    (hlab : (fitPredict (min kReq s.length) (s.map (fun r => r.embedding))).length = s.length) :
    (perform_clustering fitPredict kReq s).1.length = s.length ∧
    ∀ i, i < s.length →
      ((perform_clustering fitPredict kReq s).1.getD i recDefault).id =
          (s.getD i recDefault).id ∧
      ((perform_clustering fitPredict kReq s).1.getD i recDefault).embedding =
          (s.getD i recDefault).embedding ∧
      ((perform_clustering fitPredict kReq s).1.getD i recDefault).metadata.cluster_id =
          some ((fitPredict (min kReq s.length) (s.map (fun r => r.embedding))).getD i 0) := by
  rw [perform_clustering_store_char fitPredict kReq s hnd hn hlab]
  refine ⟨applyLabels_length _ s 0, ?_⟩
  intro i hi
  rw [applyLabels_getD _ s 0 i hi]
  simp

/-- Witness for cluster_labels_bound_to_records on a three-record store
with distinct ids and one label per vector. -/
theorem cluster_labels_bound_to_records_witness :
    ((([⟨"a", "ta", [0, 0], ⟨"a.pdf", 1, none⟩⟩,
        ⟨"b", "tb", [0, 1], ⟨"b.pdf", 1, none⟩⟩,
        ⟨"c", "tc", [1, 0], ⟨"c.pdf", 2, none⟩⟩] : Store).map (fun r => r.id)).Nodup ∧
      2 ≤ ([⟨"a", "ta", [0, 0], ⟨"a.pdf", 1, none⟩⟩,
            ⟨"b", "tb", [0, 1], ⟨"b.pdf", 1, none⟩⟩,
            ⟨"c", "tc", [1, 0], ⟨"c.pdf", 2, none⟩⟩] : Store).length) ∧
    ((perform_clustering (fun _ v => List.range v.length) 10
        [⟨"a", "ta", [0, 0], ⟨"a.pdf", 1, none⟩⟩,
         ⟨"b", "tb", [0, 1], ⟨"b.pdf", 1, none⟩⟩,
         ⟨"c", "tc", [1, 0], ⟨"c.pdf", 2, none⟩⟩]).1.length =
      ([⟨"a", "ta", [0, 0], ⟨"a.pdf", 1, none⟩⟩,
        ⟨"b", "tb", [0, 1], ⟨"b.pdf", 1, none⟩⟩,
        ⟨"c", "tc", [1, 0], ⟨"c.pdf", 2, none⟩⟩] : Store).length) :=
  ⟨⟨by decide, by decide⟩,
    (cluster_labels_bound_to_records (fun _ v => List.range v.length) 10
      [⟨"a", "ta", [0, 0], ⟨"a.pdf", 1, none⟩⟩,
       ⟨"b", "tb", [0, 1], ⟨"b.pdf", 1, none⟩⟩,
       ⟨"c", "tc", [1, 0], ⟨"c.pdf", 2, none⟩⟩]
      (by decide) (by decide) (by decide)).1⟩

/-- C6: the metadata update of the clustering pass is a merge, not a
replacement: every affected record keeps its prior source and page
metadata values and its id, text and embedding, while the new cluster_id
key is added with the computed label. -/
theorem cluster_update_is_merge (fitPredict : Nat → List (List ℚ) → List Nat)
    (kReq : Nat) (s : Store)
    (hnd : (s.map (fun r => r.id)).Nodup) (hn : 2 ≤ s.length)
    (hlab : (fitPredict (min kReq s.length) (s.map (fun r => r.embedding))).length = s.length) :
    (perform_clustering fitPredict kReq s).1.length = s.length ∧
    ∀ i, i < s.length →
      ((perform_clustering fitPredict kReq s).1.getD i recDefault).metadata.source =
          (s.getD i recDefault).metadata.source ∧
      ((perform_clustering fitPredict kReq s).1.getD i recDefault).metadata.page =
          (s.getD i recDefault).metadata.page ∧
      ((perform_clustering fitPredict kReq s).1.getD i recDefault).id =
          (s.getD i recDefault).id ∧
      ((perform_clustering fitPredict kReq s).1.getD i recDefault).text =
          (s.getD i recDefault).text ∧
      ((perform_clustering fitPredict kReq s).1.getD i recDefault).embedding =
          (s.getD i recDefault).embedding ∧
      ((perform_clustering fitPredict kReq s).1.getD i recDefault).metadata.cluster_id =
          some ((fitPredict (min kReq s.length) (s.map (fun r => r.embedding))).getD i 0) := by
  rw [perform_clustering_store_char fitPredict kReq s hnd hn hlab]
  refine ⟨applyLabels_length _ s 0, ?_⟩
  intro i hi
  rw [applyLabels_getD _ s 0 i hi]
  simp

/-- Witness for cluster_update_is_merge on a two-record store: after
clustering, record 0 keeps source a.pdf and page 1 and gains cluster_id. -/
theorem cluster_update_is_merge_witness :
    ((([⟨"a", "ta", [0, 0], ⟨"a.pdf", 1, none⟩⟩,
        ⟨"b", "tb", [0, 1], ⟨"b.pdf", 7, none⟩⟩] : Store).map (fun r => r.id)).Nodup ∧
      (0 : Nat) < 2) ∧
    (((perform_clustering (fun _ v => List.range v.length) 10
        [⟨"a", "ta", [0, 0], ⟨"a.pdf", 1, none⟩⟩,
         ⟨"b", "tb", [0, 1], ⟨"b.pdf", 7, none⟩⟩]).1.getD 0 recDefault).metadata.source =
      (([⟨"a", "ta", [0, 0], ⟨"a.pdf", 1, none⟩⟩,
         ⟨"b", "tb", [0, 1], ⟨"b.pdf", 7, none⟩⟩] : Store).getD 0 recDefault).metadata.source) :=
  ⟨⟨by decide, by decide⟩,
    ((cluster_update_is_merge (fun _ v => List.range v.length) 10
      [⟨"a", "ta", [0, 0], ⟨"a.pdf", 1, none⟩⟩,
       ⟨"b", "tb", [0, 1], ⟨"b.pdf", 7, none⟩⟩]
      (by decide) (by decide) (by decide)).2 0 (by decide)).1⟩

/-! ### Context assembly (rag_chat.py, format_context) -/

/-- Three-digit zero-padded decimal fraction. -/
def pad3 (n : Nat) : String :=
  if n < 10 then "00" ++ toString n
  else if n < 100 then "0" ++ toString n
  else toString n

/-- Round a rational to the nearest integer, ties to even, as the
%-f-style fixed-point formatting of Python does on the scaled value. -/
def roundHalfEven (q : ℚ) : Int :=
  let f := q.floor
  let r := q - (f : ℚ)
  if r < 1/2 then f
  else if 1/2 < r then f + 1
  else if f % 2 = 0 then f else f + 1

/-- Fixed-point rendering with three decimal places, the .3f format
specifier applied to the relevance score. -/
def fmt3 (q : ℚ) : String :=
  let m := roundHalfEven (q * 1000)
  let body := toString (m.natAbs / 1000) ++ "." ++ pad3 (m.natAbs % 1000)
  if m < 0 then "-" ++ body else body

/-- Rendering of metadata.get of cluster_id with default N/A. -/
def clusterStr (c : Option Nat) : String :=
  match c with
  | some k => toString k
  | none => "N/A"

/-- One block of the assembled context, for the (i+1)-th document of the
loop: the bracketed 1-based sequence number, the source and page line with
the cluster marker, the relevance score 1 - distance to three decimals,
and the full text. -/
def contextBlock (i : Nat) (doc : String) (md : Metadata) (dist : ℚ) : String :=
  "[Document " ++ toString (i + 1) ++ "]\n" ++
  "Source: " ++ md.source ++ " (Page " ++ toString md.page ++
    ", Cluster " ++ clusterStr md.cluster_id ++ ")\n" ++
  "Relevance Score: " ++ fmt3 (1 - dist) ++ "\n" ++
  "Content: " ++ doc ++ "\n"

/-- Accumulation loop of format_context: one context part per enumerated
zipped (doc, metadata, distance) triple. -/
def contextParts : Nat → List (String × Metadata × ℚ) → List String
  | _, [] => []
  | i, (doc, md, dist) :: rest => contextBlock i doc md dist :: contextParts (i + 1) rest

/-- Embedding of format_context: the enumerated blocks joined by the fixed
delimiter. -/
def format_context (res : QueryResult) : String :=
  String.intercalate "\n---\n" (contextParts 0 (res.documents.zip (res.metadatas.zip res.distances)))

theorem contextParts_length (i : Nat) (l : List (String × Metadata × ℚ)) :
    (contextParts i l).length = l.length := by
  induction l generalizing i with
  | nil => rfl
  | cons x rest ih =>
      obtain ⟨doc, md, dist⟩ := x
      simp [contextParts, ih]

theorem contextParts_getD (l : List (String × Metadata × ℚ)) (i j : Nat)
    (hj : j < l.length) :
    (contextParts i l).getD j "" =
      contextBlock (i + j) (l.getD j ("", recDefault.metadata, 0)).1
        (l.getD j ("", recDefault.metadata, 0)).2.1
        (l.getD j ("", recDefault.metadata, 0)).2.2 := by
  induction l generalizing i j with
  | nil => exact absurd hj (by simp)
  | cons x rest ih =>
      obtain ⟨doc, md, dist⟩ := x
      cases j with
      | zero => simp [contextParts]
      | succ j =>
          have hj' : j < rest.length := by simpa using hj
          have := ih (i + 1) j hj'
          simpa [contextParts, Nat.add_assoc, Nat.add_comm 1 j] using this

theorem zip3_getD (docs : List String) (mds : List Metadata) (dists : List ℚ)
    (hm : mds.length = docs.length) (hd : dists.length = docs.length)
    (j : Nat) (hj : j < docs.length) :
    (docs.zip (mds.zip dists)).getD j ("", recDefault.metadata, 0) =
      (docs.getD j "", mds.getD j recDefault.metadata, dists.getD j 0) := by
  induction docs generalizing mds dists j with
  | nil => exact absurd hj (by simp)
  | cons doc drest ih =>
      cases mds with
      | nil => exact absurd hm (by simp)
      | cons md mrest =>
          cases dists with
          | nil => exact absurd hd (by simp)
          | cons dist distrest =>
              cases j with
              | zero => simp
              | succ j =>
                  have hm' : mrest.length = drest.length := by simpa using hm
                  have hd' : distrest.length = drest.length := by simpa using hd
                  have hj' : j < drest.length := by simpa using hj
                  simpa using ih mrest distrest hm' hd' j hj'

/-- C8: on a well-formed result list of n surviving documents, the
assembled context is exactly n blocks joined by the fixed delimiter, and
block i (0-based) is the block for the 1-based number i+1 carrying the
record's source, page, cluster marker (cluster_id or N/A), the relevance
1 - distance to three decimal places, and the full text. -/
theorem format_context_blocks (res : QueryResult)
    (hm : res.metadatas.length = res.documents.length)
    (hd : res.distances.length = res.documents.length) :
    ∃ blocks : List String,
      format_context res = String.intercalate "\n---\n" blocks ∧
      blocks.length = res.documents.length ∧
      ∀ i, i < res.documents.length →
        blocks.getD i "" =
          "[Document " ++ toString (i + 1) ++ "]\n" ++
          "Source: " ++ (res.metadatas.getD i recDefault.metadata).source ++
            " (Page " ++ toString (res.metadatas.getD i recDefault.metadata).page ++
            ", Cluster " ++ clusterStr (res.metadatas.getD i recDefault.metadata).cluster_id ++
            ")\n" ++
          "Relevance Score: " ++ fmt3 (1 - res.distances.getD i 0) ++ "\n" ++
          "Content: " ++ res.documents.getD i "" ++ "\n" := by
  refine ⟨contextParts 0 (res.documents.zip (res.metadatas.zip res.distances)), rfl, ?_, ?_⟩
  · rw [contextParts_length]
    rw [List.length_zip, List.length_zip, hm, hd]
    omega
  · intro i hi
    have hzlen : i < (res.documents.zip (res.metadatas.zip res.distances)).length := by
      rw [List.length_zip, List.length_zip, hm, hd]
      omega
    rw [contextParts_getD _ 0 i hzlen, zip3_getD res.documents res.metadatas res.distances hm hd i hi]
    simp [contextBlock]

/-- Witness for format_context_blocks at a concrete two-result list. -/
theorem format_context_blocks_witness :
    ((QueryResult.mk ["alpha", "beta"]
        [⟨"a.pdf", 1, some 2⟩, ⟨"b.pdf", 3, none⟩] [1/5, 1/2]).metadatas.length =
      (QueryResult.mk ["alpha", "beta"]
        [⟨"a.pdf", 1, some 2⟩, ⟨"b.pdf", 3, none⟩] [1/5, 1/2]).documents.length) ∧
    ∃ blocks : List String,
      format_context (QueryResult.mk ["alpha", "beta"]
          [⟨"a.pdf", 1, some 2⟩, ⟨"b.pdf", 3, none⟩] [1/5, 1/2]) =
        String.intercalate "\n---\n" blocks ∧
      blocks.length = (QueryResult.mk ["alpha", "beta"]
          [⟨"a.pdf", 1, some 2⟩, ⟨"b.pdf", 3, none⟩] [1/5, 1/2]).documents.length ∧
      ∀ i, i < (QueryResult.mk ["alpha", "beta"]
          [⟨"a.pdf", 1, some 2⟩, ⟨"b.pdf", 3, none⟩] [1/5, 1/2]).documents.length →
        blocks.getD i "" =
          "[Document " ++ toString (i + 1) ++ "]\n" ++
          "Source: " ++ ((QueryResult.mk ["alpha", "beta"]
              [⟨"a.pdf", 1, some 2⟩, ⟨"b.pdf", 3, none⟩] [1/5, 1/2]).metadatas.getD i
                recDefault.metadata).source ++
            " (Page " ++ toString (((QueryResult.mk ["alpha", "beta"]
              [⟨"a.pdf", 1, some 2⟩, ⟨"b.pdf", 3, none⟩] [1/5, 1/2]).metadatas.getD i
                recDefault.metadata)).page ++
            ", Cluster " ++ clusterStr (((QueryResult.mk ["alpha", "beta"]
              [⟨"a.pdf", 1, some 2⟩, ⟨"b.pdf", 3, none⟩] [1/5, 1/2]).metadatas.getD i
                recDefault.metadata)).cluster_id ++ ")\n" ++
          "Relevance Score: " ++ fmt3 (1 - (QueryResult.mk ["alpha", "beta"]
              [⟨"a.pdf", 1, some 2⟩, ⟨"b.pdf", 3, none⟩] [1/5, 1/2]).distances.getD i 0) ++ "\n" ++
          "Content: " ++ (QueryResult.mk ["alpha", "beta"]
              [⟨"a.pdf", 1, some 2⟩, ⟨"b.pdf", 3, none⟩] [1/5, 1/2]).documents.getD i "" ++ "\n" :=
  ⟨by decide,
    format_context_blocks (QueryResult.mk ["alpha", "beta"]
      [⟨"a.pdf", 1, some 2⟩, ⟨"b.pdf", 3, none⟩] [1/5, 1/2]) (by decide) (by decide)⟩

/-! ### Single-query outcome (rag_chat.py, query_once) -/

/-- User-visible outcome of one query: the no-relevant-information
message, a generated answer with its source metadatas, or the error
report printed by the surrounding except-handler (the hard-failure path,
e.g. querying an unpopulated or missing store). -/
inductive ChatOutcome where
  | noRelevantInfo
  | answered (response : String) (sources : List Metadata)
  | errorReport (msg : String)
deriving Repr, DecidableEq

/-- Embedding of query_once: the store query may fail (hard failure,
caught and reported as an error), the answer generator may fail likewise;
an empty filtered document list short-circuits to the
no-relevant-information message before any generation. -/
def query_once (gen : String → Except String String) (threshold : ℚ)
    (queryRes : Except String QueryResult) : ChatOutcome :=
  match queryRes with
  | .error e => .errorReport e
  | .ok res =>
      let results := retrieve_relevant_docs threshold res
      if results.documents = [] then .noRelevantInfo
      else
        match gen (format_context results) with
        | .ok resp => .answered resp results.metadatas
        | .error e => .errorReport e

/-- C7: whenever the store answers and the threshold filter leaves no
documents (everything fell below threshold or nothing was returned),
query_once yields the no-relevant-information outcome — a normal value,
never the error report — while a hard store failure yields the distinct
error-report outcome. -/
theorem empty_results_not_error (gen : String → Except String String) (t : ℚ)
    (res : QueryResult)
    (hempty : (retrieve_relevant_docs t res).documents = []) :
    query_once gen t (.ok res) = ChatOutcome.noRelevantInfo ∧
    (∀ msg, ChatOutcome.noRelevantInfo ≠ ChatOutcome.errorReport msg) ∧
    (∀ e, query_once gen t (.error e) = ChatOutcome.errorReport e) := by
  refine ⟨?_, ?_, ?_⟩
  · simp [query_once, hempty]
  · intro msg h
    exact ChatOutcome.noConfusion h
  · intro e
    rfl

/-- Witness for empty_results_not_error: one candidate at distance 0.85
(relevance 0.15) falls below threshold 0.3, so the filtered list is empty
and the outcome is the no-relevant-information message. -/
theorem empty_results_not_error_witness :
    (retrieve_relevant_docs (3/10)
        (QueryResult.mk ["only"] [⟨"a.pdf", 1, none⟩] [17/20])).documents = [] ∧
    query_once (fun p => .ok p) (3/10)
        (.ok (QueryResult.mk ["only"] [⟨"a.pdf", 1, none⟩] [17/20])) =
      ChatOutcome.noRelevantInfo :=
  ⟨by norm_num [retrieve_relevant_docs, filterLoop],
    (empty_results_not_error (fun p => .ok p) (3/10)
      (QueryResult.mk ["only"] [⟨"a.pdf", 1, none⟩] [17/20])
      (by norm_num [retrieve_relevant_docs, filterLoop])).1⟩

/-! ### Ingestion ids (cluster_pdfs.py, create_chroma_collection) -/

/-- Derivation of a record id from its document, the f-string
source_p page of create_chroma_collection. -/
def makeId (d : Doc) : String :=
  d.metadata.source ++ "_p" ++ toString d.metadata.page

/-- Modelled from the spec: the external Chroma collection insert upserts
by id, last write wins (spec sec. 4.1); the repository only supplies the
ids, texts and metadatas. -/
def upsert (s : Store) (r : Record) : Store :=
  if s.any (fun x => x.id == r.id) then
    s.map (fun x => if x.id == r.id then r else x)
  else
    s ++ [r]

/-- Embedding of create_chroma_collection's data preparation and add call:
derive one id per document from (source, page), embed the text through the
embedding provider, and insert the records in order. -/
def create_chroma_collection (embed : String → List ℚ) (docs : List Doc) (s : Store) : Store :=
  docs.foldl (fun st d => upsert st ⟨makeId d, d.text, embed d.text, d.metadata⟩) s

theorem upsert_preserves_id_nodup (s : Store) (r : Record)
    (h : (s.map (fun x => x.id)).Nodup) :
    ((upsert s r).map (fun x => x.id)).Nodup := by
  unfold upsert
  by_cases hmem : s.any (fun x => x.id == r.id)
  · rw [if_pos hmem]
    have : (s.map (fun x => if x.id == r.id then r else x)).map (fun x => x.id) =
        s.map (fun x => x.id) := by
      rw [List.map_map]
      apply List.map_congr_left
      intro x _
      by_cases hx : x.id = r.id
      · simp [Function.comp, hx]
      · simp [Function.comp, hx]
    rw [this]
    exact h
  · rw [if_neg hmem]
    rw [List.map_append]
    refine List.Nodup.append h (by simp) ?_
    intro a ha hb
    simp only [List.map_cons, List.map_nil, List.mem_singleton] at hb
    rcases List.mem_map.mp ha with ⟨x, hx, hxa⟩
    rw [List.any_eq_true] at hmem
    exact hmem ⟨x, hx, by simp [hxa, hb]⟩

theorem filter_id_upsert (s : Store) (r : Record)
    (h : (s.map (fun x => x.id)).Nodup) :
    (upsert s r).filter (fun x => x.id == r.id) = [r] := by
  unfold upsert
  by_cases hmem : s.any (fun x => x.id == r.id)
  · rw [if_pos hmem]
    induction s with
    | nil => simp at hmem
    | cons y rest ih =>
        rw [List.map_cons, List.nodup_cons] at h
        by_cases hy : y.id = r.id
        · have hrest : ∀ x ∈ rest, x.id ≠ r.id := by
            intro x hx he
            exact h.1 (by rw [hy, ← he]; exact List.mem_map_of_mem _ hx)
          have hmap : rest.map (fun x => if x.id == r.id then r else x) = rest := by
            conv_rhs => rw [← List.map_id rest]
            apply List.map_congr_left
            intro x hx
            simp [hrest x hx]
          rw [List.map_cons, if_pos (by simp [hy] : (y.id == r.id) = true), hmap]
          rw [List.filter_cons_of_pos (by simp)]
          have hfilt : rest.filter (fun x => x.id == r.id) = [] := by
            rw [List.filter_eq_nil_iff]
            intro x hx
            simp [hrest x hx]
          rw [hfilt]
        · have hyfalse : (y.id == r.id) = false := by simp [hy]
          have hmem' : rest.any (fun x => x.id == r.id) := by
            rw [List.any_eq_true] at hmem ⊢
            rcases hmem with ⟨x, hx, hxid⟩
            rcases List.mem_cons.mp hx with he | hm
            · exact absurd (by simpa using hxid) (he ▸ hy)
            · exact ⟨x, hm, hxid⟩
          rw [List.map_cons, show (if y.id == r.id then r else y) = y by simp [hyfalse]]
          rw [List.filter_cons_of_neg (by simp [hy])]
          exact ih h.2 hmem'
  · rw [if_neg hmem]
    rw [List.filter_append]
    have hnone : s.filter (fun x => x.id == r.id) = [] := by
      rw [List.filter_eq_nil_iff]
      intro x hx hxid
      rw [List.any_eq_true] at hmem
      exact hmem ⟨x, hx, hxid⟩
    simp [hnone]

/-- C9: the record id is the deterministic string source_p page of the
(source, page) pair, so two documents with the same source and page get
the same id, and ingesting both leaves exactly one record under that id,
holding the second document's text and metadata: the second write
overwrites instead of duplicating. -/
theorem same_source_page_overwrites (embed : String → List ℚ) (d1 d2 : Doc) (s : Store)
    (hs : d1.metadata.source = d2.metadata.source)
    (hp : d1.metadata.page = d2.metadata.page)
    (hnd : (s.map (fun x => x.id)).Nodup) :
    makeId d1 = makeId d2 ∧
    (create_chroma_collection embed [d1, d2] s).filter (fun x => x.id == makeId d1) =
      [⟨makeId d2, d2.text, embed d2.text, d2.metadata⟩] := by
  have hid : makeId d1 = makeId d2 := by
    unfold makeId
    rw [hs, hp]
  refine ⟨hid, ?_⟩
  have hstep : create_chroma_collection embed [d1, d2] s =
      upsert (upsert s ⟨makeId d1, d1.text, embed d1.text, d1.metadata⟩)
        ⟨makeId d2, d2.text, embed d2.text, d2.metadata⟩ := rfl
  rw [hstep, hid]
  exact filter_id_upsert
    (upsert s ⟨makeId d2, d1.text, embed d1.text, d1.metadata⟩)
    ⟨makeId d2, d2.text, embed d2.text, d2.metadata⟩
    (upsert_preserves_id_nodup s ⟨makeId d2, d1.text, embed d1.text, d1.metadata⟩ hnd)

/-- Witness for same_source_page_overwrites: two documents for page 2 of
x.pdf ingested into an empty store leave one record x.pdf_p2 with the
second text. -/
theorem same_source_page_overwrites_witness :
    ((Doc.mk "first text" ⟨"x.pdf", 2, none⟩).metadata.source =
      (Doc.mk "second text" ⟨"x.pdf", 2, none⟩).metadata.source) ∧
    makeId (Doc.mk "first text" ⟨"x.pdf", 2, none⟩) =
      makeId (Doc.mk "second text" ⟨"x.pdf", 2, none⟩) ∧
    (create_chroma_collection (fun _ => [0])
        [Doc.mk "first text" ⟨"x.pdf", 2, none⟩, Doc.mk "second text" ⟨"x.pdf", 2, none⟩]
        []).filter (fun x => x.id == makeId (Doc.mk "first text" ⟨"x.pdf", 2, none⟩)) =
      [⟨makeId (Doc.mk "second text" ⟨"x.pdf", 2, none⟩), "second text", [0],
        ⟨"x.pdf", 2, none⟩⟩] :=
  ⟨by decide,
    same_source_page_overwrites (fun _ => [0])
      (Doc.mk "first text" ⟨"x.pdf", 2, none⟩) (Doc.mk "second text" ⟨"x.pdf", 2, none⟩)
      [] (by decide) (by decide) (by decide)⟩

/-! ### PDF text extraction (extract_text_from_pdfs.py and the identical
function in cluster_pdfs.py)

A PDF file is its base name together with either none (the PdfReader call
failed, caught and skipped) or the list of per-page extraction results,
each an optional string (the text, possibly empty). -/

/-- Inner page loop: for page_num, page in enumerate(reader.pages), append
a document exactly when the extracted text is truthy (neither missing nor
the empty string), carrying page = page_num + 1. -/
def pageDocs (source : String) : Nat → List (Option String) → List Doc
  | _, [] => []
  | i, t? :: rest =>
      match t? with
      | some t =>
          if t = "" then pageDocs source (i + 1) rest
          else ⟨t, ⟨source, i + 1, none⟩⟩ :: pageDocs source (i + 1) rest
      | none => pageDocs source (i + 1) rest

/-- Embedding of extract_text_from_pdfs: walk the files in order, skip the
unreadable ones, and accumulate the page documents of each readable one. -/
def extract_text_from_pdfs (files : List (String × Option (List (Option String)))) : List Doc :=
  files.foldl
    (fun acc f =>
      match f.2 with
      | none => acc
      | some pgs => acc ++ pageDocs f.1 0 pgs)
    []

theorem pageDocs_mem (source : String) (i : Nat) (pgs : List (Option String)) (d : Doc)
    (hd : d ∈ pageDocs source i pgs) :
    d.text ≠ "" ∧ d.metadata.source = source ∧ d.metadata.cluster_id = none ∧
    ∃ j, ∃ hj : j < pgs.length, d.metadata.page = i + j + 1 ∧
      pgs.get ⟨j, hj⟩ = some d.text := by
  induction pgs generalizing i with
  | nil => simp [pageDocs] at hd
  | cons t? rest ih =>
      match t? with
      | some t =>
          by_cases ht : t = ""
          · simp only [pageDocs, if_pos ht] at hd
            obtain ⟨h1, h2, h3, j, hj, hpage, hget⟩ := ih (i + 1) hd
            exact ⟨h1, h2, h3, j + 1, by simpa using hj, by omega, by simpa using hget⟩
          · simp only [pageDocs, if_neg ht] at hd
            rcases List.mem_cons.mp hd with he | hm
            · subst he
              exact ⟨ht, rfl, rfl, 0, by simp, by simp, rfl⟩
            · obtain ⟨h1, h2, h3, j, hj, hpage, hget⟩ := ih (i + 1) hm
              exact ⟨h1, h2, h3, j + 1, by simpa using hj, by omega, by simpa using hget⟩
      | none =>
          simp only [pageDocs] at hd
          obtain ⟨h1, h2, h3, j, hj, hpage, hget⟩ := ih (i + 1) hd
          exact ⟨h1, h2, h3, j + 1, by simpa using hj, by omega, by simpa using hget⟩

theorem extract_foldl_mem (files : List (String × Option (List (Option String))))
    (acc : List Doc) (d : Doc)
    (hd : d ∈ files.foldl
      (fun acc f => match f.2 with | none => acc | some pgs => acc ++ pageDocs f.1 0 pgs) acc) :
    d ∈ acc ∨ ∃ f ∈ files, ∃ pgs, f.2 = some pgs ∧ d ∈ pageDocs f.1 0 pgs := by
  induction files generalizing acc with
  | nil => exact Or.inl hd
  | cons f rest ih =>
      simp only [List.foldl_cons] at hd
      match hf : f.2 with
      | none =>
          rw [hf] at hd
          rcases ih acc hd with h | ⟨g, hg, pgs, hgp, hdp⟩
          · exact Or.inl h
          · exact Or.inr ⟨g, List.mem_cons_of_mem f hg, pgs, hgp, hdp⟩
      | some pgs =>
          rw [hf] at hd
          rcases ih (acc ++ pageDocs f.1 0 pgs) hd with h | ⟨g, hg, pgs', hgp, hdp⟩
          · rcases List.mem_append.mp h with h' | h'
            · exact Or.inl h'
            · exact Or.inr ⟨f, List.mem_cons_self f rest, pgs, hf, h'⟩
          · exact Or.inr ⟨g, List.mem_cons_of_mem f hg, pgs', hgp, hdp⟩

/-- C10: every document emitted by the extraction has non-empty text, and
its page metadata is the 0-based position of its page in its source file
plus one (hence a 1-based positive integer), that position holding exactly
the emitted text; pages whose extraction yielded nothing or the empty
string produce no document, so emitted page numbers may skip values. -/
theorem extracted_pages_one_based (files : List (String × Option (List (Option String))))
    (d : Doc) (hd : d ∈ extract_text_from_pdfs files) :
    d.text ≠ "" ∧ 1 ≤ d.metadata.page ∧
    ∃ f ∈ files, ∃ pgs, f.2 = some pgs ∧ d.metadata.source = f.1 ∧
      ∃ j, ∃ hj : j < pgs.length, d.metadata.page = j + 1 ∧ pgs.get ⟨j, hj⟩ = some d.text := by
  rcases extract_foldl_mem files [] d hd with h | ⟨f, hf, pgs, hfp, hdp⟩
  · simp at h
  · obtain ⟨h1, h2, _h3, j, hj, hpage, hget⟩ := pageDocs_mem f.1 0 pgs d hdp
    exact ⟨h1, by omega, f, hf, pgs, hfp, h2, j, hj, by omega, hget⟩

/-- Witness for extracted_pages_one_based: a file whose second page is
empty and third unreadable emits the fourth page as page number 4 — page
numbers are 1-based and non-contiguous after skips. -/
theorem extracted_pages_one_based_witness :
    ((Doc.mk "y" ⟨"a.pdf", 4, none⟩) ∈
      extract_text_from_pdfs [("a.pdf", some [some "x", some "", none, some "y"])]) ∧
    (Doc.mk "y" ⟨"a.pdf", 4, none⟩).text ≠ "" ∧
    1 ≤ (Doc.mk "y" ⟨"a.pdf", 4, none⟩).metadata.page ∧
    ∃ f ∈ [("a.pdf", some [some "x", some "", none, some "y"])], ∃ pgs, f.2 = some pgs ∧
      (Doc.mk "y" ⟨"a.pdf", 4, none⟩).metadata.source = f.1 ∧
      ∃ j, ∃ hj : j < pgs.length, (Doc.mk "y" ⟨"a.pdf", 4, none⟩).metadata.page = j + 1 ∧
        pgs.get ⟨j, hj⟩ = some (Doc.mk "y" ⟨"a.pdf", 4, none⟩).text :=
  ⟨by decide,
    (extracted_pages_one_based [("a.pdf", some [some "x", some "", none, some "y"])]
      (Doc.mk "y" ⟨"a.pdf", 4, none⟩) (by decide)).1,
    (extracted_pages_one_based [("a.pdf", some [some "x", some "", none, some "y"])]
      (Doc.mk "y" ⟨"a.pdf", 4, none⟩) (by decide)).2⟩

end PdfToVector
